import Mathlib

/-!
# Verification of the Node Identity & Secure Task Runner subsystem

This file contains a shallow embedding, in Lean 4, of the core of the
`ekka-desktop` template application: the node vault (device secret, key
derivation, AES-GCM-style AEAD envelope, base64, atomic file store), the
node credentials manager, the auth token cache and single-flight guard,
the session runner's 401-recovery protocol and poll backoff, and the
runner status tracker's error sanitizer.

Source files embedded (paths relative to the repository root):
* `src/template/src-tauri/crates/ekka-desktop-core/src/device_secret.rs`
* `src/template/src-tauri/crates/ekka-desktop-core/src/node_vault_store.rs`
* `src/template/src-tauri/src/node_vault_crypto.rs`
* `src/template/src-tauri/src/node_credentials.rs`
* `src/template/src-tauri/src/node_auth.rs`
* `src/template/src-tauri/src/node_runner.rs`
* `src/template/src-tauri/src/state.rs`
* `src/template/src-tauri/src/commands.rs` (the store-credentials command)

Strings and file contents are modelled as lists of bytes (`List Nat`,
each element intended `< 256`); the file system is an association list
from path strings to byte lists; wall-clock time is an explicit `Int`
parameter (seconds); randomness (nonces, fresh device secrets) is an
explicit stream parameter.  External crates (`ekka_crypto`, `serde_json`,
`base64`, `uuid`, `reqwest`) are modelled where the repository composes
them; each such model carries a comment saying what it stands for.
-/

deriving instance DecidableEq for Except

-- =========================================================================
-- Generic byte-list helpers
-- =========================================================================

/-- Bytes of a Lean string literal (used only for ASCII literals, where
UTF-8 bytes coincide with code points). -/
def strBytes (s : String) : List Nat :=
  s.data.map Char.toNat

/-- Does the byte list `l` start with `p`? (model of Rust `str::starts_with`).  -/
def startsWithB : List Nat → List Nat → Bool
  | _, [] => true
  | [], _ :: _ => false
  | x :: xs, y :: ys => x == y && startsWithB xs ys

/-- Does the byte list `hay` contain `needle` as a contiguous run?
(model of Rust `str::contains` on byte strings). -/
def containsSub : List Nat → List Nat → Bool
  | [], needle => needle == []
  | x :: xs, needle => startsWithB (x :: xs) needle || containsSub xs needle

/-- Membership of a single byte (model of Rust `str::contains(char)`). -/
def containsByte (l : List Nat) (b : Nat) : Bool :=
  l.contains b

-- =========================================================================
-- Base64 (model of the `base64` crate's STANDARD engine, as used by
-- `node_vault_store.rs` for `EncryptedEnvelope.data_b64`)
-- =========================================================================

/-- The standard base64 alphabet, as byte values: A-Z, a-z, 0-9, plus, slash. -/
def b64Alphabet : List Nat :=
  (List.range 26).map (fun i => 65 + i) ++
  (List.range 26).map (fun i => 97 + i) ++
  (List.range 10).map (fun i => 48 + i) ++
  [43, 47]

/-- Encode a 6-bit group as a base64 alphabet byte. -/
def b64Char (n : Nat) : Nat :=
  b64Alphabet.getD n 65

/-- Decode a base64 alphabet byte back to its 6-bit group. -/
def b64Index (c : Nat) : Option Nat :=
  b64Alphabet.findIdx? (fun x => x == c)

/-- Base64-encode a byte list, with `=` (61) padding, 3 input bytes per
4 output characters (model of `BASE64.encode`). -/
def b64EncodeBytes : List Nat → List Nat
  | [] => []
  | [a] => [b64Char (a / 4), b64Char (a % 4 * 16), 61, 61]
  | [a, b] => [b64Char (a / 4), b64Char (a % 4 * 16 + b / 16), b64Char (b % 16 * 4), 61]
  | a :: b :: c :: rest =>
      b64Char (a / 4) :: b64Char (a % 4 * 16 + b / 16) :: b64Char (b % 16 * 4 + c / 64) ::
        b64Char (c % 64) :: b64EncodeBytes rest

/-- Base64-decode (model of `BASE64.decode`): strict quads, `=` padding
only in the final quad, canonical trailing bits required. -/
def b64DecodeBytes : List Nat → Option (List Nat)
  | [] => some []
  | c1 :: c2 :: c3 :: c4 :: rest =>
    match b64Index c1, b64Index c2 with
    | some n1, some n2 =>
      if c3 == 61 && c4 == 61 && rest == ([] : List Nat) then
        if n2 % 16 == 0 then some [n1 * 4 + n2 / 16] else none
      else if c4 == 61 && rest == ([] : List Nat) then
        match b64Index c3 with
        | some n3 =>
          if n3 % 4 == 0 then some [n1 * 4 + n2 / 16, n2 % 16 * 16 + n3 / 4] else none
        | none => none
      else
        match b64Index c3, b64Index c4 with
        | some n3, some n4 =>
          match b64DecodeBytes rest with
          | some bs => some ((n1 * 4 + n2 / 16) :: (n2 % 16 * 16 + n3 / 4) :: (n3 % 4 * 64 + n4) :: bs)
          | none => none
        | _, _ => none
    | _, _ => none
  | _ => none

theorem b64Index_b64Char : ∀ n < 64, b64Index (b64Char n) = some n := by decide

theorem b64Char_ne_61 : ∀ n < 64, b64Char n ≠ 61 := by decide

theorem b64Char_ne_34 : ∀ n < 64, b64Char n ≠ 34 := by decide

theorem b64Char_lt_256 : ∀ n < 64, b64Char n < 256 := by decide

/-- Auxiliary induction (on a length bound) for the base64 round trip. -/
theorem b64_roundtrip_aux :
    ∀ (n : Nat) (bs : List Nat), bs.length ≤ n → (∀ b ∈ bs, b < 256) →
      b64DecodeBytes (b64EncodeBytes bs) = some bs := by
  intro n
  induction n with
  | zero =>
    intro bs hlen _
    have : bs = [] := List.length_eq_zero.mp (Nat.le_zero.mp hlen)
    subst this
    simp [b64EncodeBytes, b64DecodeBytes]
  | succ n ih =>
    intro bs hlen hb
    match bs with
    | [] => simp [b64EncodeBytes, b64DecodeBytes]
    | [a] =>
      have ha : a < 256 := hb a (by simp)
      have h1 : a / 4 < 64 := by omega
      have h2 : a % 4 * 16 < 64 := by omega
      simp only [b64EncodeBytes, b64DecodeBytes, b64Index_b64Char _ h1, b64Index_b64Char _ h2]
      simp [Nat.mul_mod_left]
      omega
    | [a, b] =>
      have ha : a < 256 := hb a (by simp)
      have hb' : b < 256 := hb b (by simp)
      have h1 : a / 4 < 64 := by omega
      have h2 : a % 4 * 16 + b / 16 < 64 := by omega
      have h3 : b % 16 * 4 < 64 := by omega
      have hne3 : (b64Char (b % 16 * 4) == 61) = false := by
        simp [b64Char_ne_61 _ h3]
      simp only [b64EncodeBytes, b64DecodeBytes, b64Index_b64Char _ h1, b64Index_b64Char _ h2,
        b64Index_b64Char _ h3]
      simp [hne3, Nat.mul_mod_left]
      omega
    | a :: b :: c :: rest =>
      have ha : a < 256 := hb a (by simp)
      have hbb : b < 256 := hb b (by simp)
      have hc : c < 256 := hb c (by simp)
      have h1 : a / 4 < 64 := by omega
      have h2 : a % 4 * 16 + b / 16 < 64 := by omega
      have h3 : b % 16 * 4 + c / 64 < 64 := by omega
      have h4 : c % 64 < 64 := by omega
      have hrest : b64DecodeBytes (b64EncodeBytes rest) = some rest := by
        apply ih rest
        · simp only [List.length_cons] at hlen
          omega
        · intro x hx
          exact hb x (by simp [hx])
      have hne3 : (b64Char (b % 16 * 4 + c / 64) == 61) = false := by
        simp [b64Char_ne_61 _ h3]
      have hne4 : (b64Char (c % 64) == 61) = false := by
        simp [b64Char_ne_61 _ h4]
      simp only [b64EncodeBytes, b64DecodeBytes, b64Index_b64Char _ h1, b64Index_b64Char _ h2,
        b64Index_b64Char _ h3, b64Index_b64Char _ h4]
      simp [hne3, hne4, hrest]
      omega

/-- Decoding an encoded byte list gives back the bytes (for genuine bytes). -/
theorem b64_roundtrip (bs : List Nat) (h : ∀ b ∈ bs, b < 256) :
    b64DecodeBytes (b64EncodeBytes bs) = some bs :=
  b64_roundtrip_aux bs.length bs (Nat.le_refl _) h

theorem b64Char_ne_34_all : ∀ m : Nat, b64Char m ≠ 34 := by
  intro m
  by_cases hm : m < 64
  · exact b64Char_ne_34 _ hm
  · have hlen : b64Alphabet.length ≤ m := by
      have : b64Alphabet.length = 64 := by decide
      omega
    have : b64Char m = 65 := List.getD_eq_default _ _ hlen
    simp [this]

/-- Every byte of a base64 encoding is either an alphabet byte or padding;
in particular it is never a double quote (34). -/
theorem b64Encode_ne_quote :
    ∀ (n : Nat) (bs : List Nat), bs.length ≤ n → ∀ x ∈ b64EncodeBytes bs, x ≠ 34 := by
  intro n
  induction n with
  | zero =>
    intro bs hlen x hx
    have : bs = [] := List.length_eq_zero.mp (Nat.le_zero.mp hlen)
    subst this
    simp [b64EncodeBytes] at hx
  | succ n ih =>
    intro bs hlen x hx
    match bs with
    | [] => simp [b64EncodeBytes] at hx
    | [a] =>
      simp only [b64EncodeBytes, List.mem_cons, List.not_mem_nil, or_false] at hx
      rcases hx with h | h | h | h <;> subst h <;> first | exact b64Char_ne_34_all _ | omega
    | [a, b] =>
      simp only [b64EncodeBytes, List.mem_cons, List.not_mem_nil, or_false] at hx
      rcases hx with h | h | h | h <;> subst h <;> first | exact b64Char_ne_34_all _ | omega
    | a :: b :: c :: rest =>
      simp only [b64EncodeBytes, List.mem_cons] at hx
      rcases hx with h | h | h | h | h
      · subst h; exact b64Char_ne_34_all _
      · subst h; exact b64Char_ne_34_all _
      · subst h; exact b64Char_ne_34_all _
      · subst h; exact b64Char_ne_34_all _
      · exact ih rest (by simp only [List.length_cons] at hlen; omega) x h

-- =========================================================================
-- AEAD cipher and KDF (models of the external `ekka_sdk_core::ekka_crypto`
-- crate, which is not part of this repository's sources)
-- =========================================================================

/-- Deterministic mixing of a byte list into a 32-bit word (helper for the
KDF / keystream / MAC models below). -/
def mixList (l : List Nat) : Nat :=
  l.foldl (fun a b => (a * 131 + b + 1) % 4294967296) 17

/-- Keystream byte `i` for a (key, nonce) pair. -/
def ksByte (key nonce : List Nat) (i : Nat) : Nat :=
  (mixList (key ++ nonce) * 31 + i * 67 + 11) % 256

/-- The first `len` keystream bytes for a (key, nonce) pair. -/
def ksRange (key nonce : List Nat) (len : Nat) : List Nat :=
  (List.range len).map (ksByte key nonce)

/-- Authentication tag (16 bytes) over key, nonce and plaintext. -/
def tagBytes (key nonce pt : List Nat) : List Nat :=
  (List.range 16).map (fun j => (mixList (key ++ nonce ++ pt) + j * 29) % 256)

/-- Modelled from the spec: `ekka_crypto::encrypt` (used by
`node_vault_crypto.rs::encrypt_node_value`) lives in the external
`ekka-sdk-core` crate, not under `src/`.  Per spec §4.3/§6 it is an AEAD
cipher (AES-256-GCM) with a random 12-byte nonce whose output is framed
as `version || nonce || ciphertext(+tag)`.  It is modelled as a
keystream-XOR cipher with a 16-byte MAC in the same frame, which keeps
the properties the repository relies on: round trip under one key, and
failing closed on tampering. -/
def ekkaEncrypt (pt key nonce : List Nat) : List Nat :=
  1 :: (nonce ++ (List.zipWith Nat.xor pt (ksRange key nonce pt.length) ++ tagBytes key nonce pt))

/-- Modelled from the spec: `ekka_crypto::decrypt` (used by
`node_vault_crypto.rs::decrypt_node_value`), inverse of `ekkaEncrypt`;
an authentication failure is a hard error, per spec §4.3. -/
def ekkaDecrypt (data key : List Nat) : Except String (List Nat) :=
  if data.length < 29 then Except.error "Decryption failed: input too short"
  else
    match data with
    | [] => Except.error "Decryption failed: empty input"
    | v :: rest =>
      if v ≠ 1 then Except.error "Decryption failed: unsupported version"
      else
        let nonce := rest.take 12
        let payload := rest.drop 12
        let ct := payload.take (payload.length - 16)
        let tag := payload.drop (payload.length - 16)
        let pt := List.zipWith Nat.xor ct (ksRange key nonce ct.length)
        if tagBytes key nonce pt = tag then Except.ok pt
        else Except.error "Decryption failed: authentication"

/-- Hex digit as a byte (0-9 then a-f), model of the `hex` crate. -/
def hexDigit (n : Nat) : Nat :=
  if n < 10 then 48 + n else 87 + n

/-- Lowercase hex encoding of a byte list (model of `hex::encode`). -/
def hexEncode (bs : List Nat) : List Nat :=
  bs.foldr (fun b acc => hexDigit (b / 16) :: hexDigit (b % 16) :: acc) []

/-- Modelled from the spec: `ekka_crypto::derive_key` (PBKDF2-SHA256 with
100k iterations per spec §4.3) is in the external crate; it is modelled
as a deterministic executable mixer over the same inputs
(secret hex string, user context, epoch, purpose label). -/
def deriveKey (secretHex ctx : List Nat) (epoch : Nat) (purpose : List Nat) : List Nat :=
  (List.range 32).map (fun i =>
    (mixList (secretHex ++ ctx ++ purpose) + epoch * 7919 + i * 101) % 256)

-- =========================================================================
-- File system model
-- =========================================================================

/-- The file system as an association list from path to file bytes; the
head binding for a path shadows older ones. -/
abbrev Fs := List (String × List Nat)

/-- Read a file (None when absent). -/
def fsRead (fs : Fs) (p : String) : Option (List Nat) :=
  (fs.find? (fun e => e.1 == p)).map Prod.snd

/-- Create or overwrite a file. -/
def fsWrite (fs : Fs) (p : String) (v : List Nat) : Fs :=
  (p, v) :: fs

/-- Remove a file (all shadowed bindings included). -/
def fsRemove (fs : Fs) (p : String) : Fs :=
  fs.filter (fun e => !(e.1 == p))

/-- Does a file exist? (model of `Path::exists`). -/
def fsExists (fs : Fs) (p : String) : Bool :=
  (fsRead fs p).isSome

theorem fsRead_fsWrite_same (fs : Fs) (p : String) (v : List Nat) :
    fsRead (fsWrite fs p v) p = some v := by
  simp [fsRead, fsWrite, List.find?]

theorem fsRead_fsWrite_other (fs : Fs) (p q : String) (v : List Nat) (h : q ≠ p) :
    fsRead (fsWrite fs p v) q = fsRead fs q := by
  simp only [fsRead, fsWrite, List.find?]
  have : (p == q) = false := by
    simp only [beq_eq_false_iff_ne, ne_eq]
    exact fun hpq => h hpq.symm
  simp [this]

theorem fsRead_fsRemove_other (fs : Fs) (p q : String) (h : q ≠ p) :
    fsRead (fsRemove fs p) q = fsRead fs q := by
  simp only [fsRead, fsRemove]
  induction fs with
  | nil => rfl
  | cons e rest ih =>
    by_cases hp : e.1 = p
    · have h1 : (e.1 == p) = true := beq_iff_eq.mpr hp
      have h2 : (e.1 == q) = false := by
        simp only [beq_eq_false_iff_ne, ne_eq, hp]
        exact fun hh => h hh.symm
      simp only [List.filter_cons, h1, Bool.not_true, Bool.false_eq_true, if_false,
        List.find?_cons, h2]
      exact ih
    · have h1 : (e.1 == p) = false := beq_eq_false_iff_ne.mpr hp
      by_cases hq : e.1 = q
      · have h2 : (e.1 == q) = true := beq_iff_eq.mpr hq
        simp only [List.filter_cons, h1, Bool.not_false, if_true, List.find?_cons, h2]
      · have h2 : (e.1 == q) = false := beq_eq_false_iff_ne.mpr hq
        simp only [List.filter_cons, h1, Bool.not_false, if_true, List.find?_cons, h2]
        exact ih

-- =========================================================================
-- Paths (model of the `PathBuf` values built by the vault and the
-- device-secret store)
-- =========================================================================

/-- Path of the device secret file (`device_secret.rs::device_secret_path`). -/
def deviceSecretPath (home : String) : String :=
  home ++ "/.ekka-device-secret"

/-- Path of a vault secret (`node_vault_store.rs::secret_path`). -/
def vaultSecretPath (home sid : String) : String :=
  home ++ ("/vault/node/values/" ++ (sid ++ ".enc"))

/-- Path of the temporary file used for atomic writes
(`final_path.with_extension("enc.tmp")`). -/
def vaultTempPath (home sid : String) : String :=
  home ++ ("/vault/node/values/" ++ (sid ++ ".enc.tmp"))

theorem length_deviceSecretPath (home : String) :
    (deviceSecretPath home).length = home.length + 20 := by
  have h : ("/.ekka-device-secret" : String).length = 20 := rfl
  simp [deviceSecretPath, String.length_append, h]

theorem length_vaultSecretPath (home sid : String) :
    (vaultSecretPath home sid).length = home.length + 19 + sid.length + 4 := by
  have h1 : ("/vault/node/values/" : String).length = 19 := rfl
  have h2 : (".enc" : String).length = 4 := rfl
  simp [vaultSecretPath, String.length_append, h1, h2]
  omega

theorem length_vaultTempPath (home sid : String) :
    (vaultTempPath home sid).length = home.length + 19 + sid.length + 8 := by
  have h1 : ("/vault/node/values/" : String).length = 19 := rfl
  have h2 : (".enc.tmp" : String).length = 8 := rfl
  simp [vaultTempPath, String.length_append, h1, h2]
  omega

theorem vaultSecretPath_ne_deviceSecretPath (home sid : String) :
    vaultSecretPath home sid ≠ deviceSecretPath home := by
  intro h
  have := congrArg String.length h
  rw [length_vaultSecretPath, length_deviceSecretPath] at this
  omega

theorem vaultTempPath_ne_deviceSecretPath (home sid : String) :
    vaultTempPath home sid ≠ deviceSecretPath home := by
  intro h
  have := congrArg String.length h
  rw [length_vaultTempPath, length_deviceSecretPath] at this
  omega

theorem vaultSecretPath_ne_vaultTempPath (home sid : String) :
    vaultSecretPath home sid ≠ vaultTempPath home sid := by
  intro h
  have := congrArg String.length h
  rw [length_vaultSecretPath, length_vaultTempPath] at this
  omega

-- =========================================================================
-- Device secret store (`device_secret.rs`)
-- =========================================================================

/-- Model of `load_or_create_device_secret`: read 32 bytes from the
secret file (a short file is an IO error, extra bytes beyond 32 are left
unread, exactly as `read_exact` behaves), or generate 32 fresh bytes
from the random stream and persist them.  File permissions (0600) have
no counterpart in the map model. -/
def loadOrCreateDeviceSecret (home : String) (fs : Fs) (rng : Nat → Nat) :
    Except String (List Nat × Fs) :=
  match fsRead fs (deviceSecretPath home) with
  | some bytes =>
    if bytes.length < 32 then Except.error "device secret: failed to fill whole buffer"
    else Except.ok (bytes.take 32, fs)
  | none =>
    let secret := (List.range 32).map (fun i => rng i % 256)
    Except.ok (secret, fsWrite fs (deviceSecretPath home) secret)

/-- Model of `node_vault_crypto.rs::derive_node_vault_key`: load or
create the device secret, hex-encode it, and derive with the fixed
context `node-vault-context`, the caller's epoch and the purpose label
`node-vault`. -/
def deriveNodeVaultKey (home : String) (epoch : Nat) (fs : Fs) (rng : Nat → Nat) :
    Except String (List Nat × Fs) :=
  match loadOrCreateDeviceSecret home fs rng with
  | Except.error e => Except.error e
  | Except.ok (secret, fs') =>
    Except.ok
      (deriveKey (hexEncode secret) (strBytes "node-vault-context") epoch (strBytes "node-vault"),
        fs')

-- =========================================================================
-- AEAD round trip
-- =========================================================================

theorem length_ksRange (key nonce : List Nat) (len : Nat) :
    (ksRange key nonce len).length = len := by
  simp [ksRange]

theorem length_tagBytes (key nonce pt : List Nat) :
    (tagBytes key nonce pt).length = 16 := by
  simp [tagBytes]

theorem zipWith_xor_cancel :
    ∀ (pt ks : List Nat), pt.length = ks.length →
      List.zipWith Nat.xor (List.zipWith Nat.xor pt ks) ks = pt := by
  intro pt
  induction pt with
  | nil =>
    intro ks _
    simp
  | cons a ptl ih =>
    intro ks h
    match ks with
    | [] => simp at h
    | k :: ksl =>
      simp only [List.zipWith_cons_cons, List.cons.injEq]
      refine ⟨Nat.xor_cancel_right _ _, ih ksl ?_⟩
      simpa using h

/-- Decrypting with the key that encrypted recovers the plaintext. -/
theorem ekkaDecrypt_ekkaEncrypt (pt key nonce : List Nat) (h : nonce.length = 12) :
    ekkaDecrypt (ekkaEncrypt pt key nonce) key = Except.ok pt := by
  have hks : (ksRange key nonce pt.length).length = pt.length := length_ksRange _ _ _
  have hct : (List.zipWith Nat.xor pt (ksRange key nonce pt.length)).length = pt.length := by
    rw [List.length_zipWith, hks, Nat.min_self]
  have htag := length_tagBytes key nonce pt
  have hlen : ¬ (ekkaEncrypt pt key nonce).length < 29 := by
    simp only [ekkaEncrypt, List.length_cons, List.length_append, hct, htag, h]
    omega
  unfold ekkaEncrypt at hlen ⊢
  unfold ekkaDecrypt
  rw [if_neg hlen]
  simp only [ne_eq, not_true_eq_false, if_false, reduceIte]
  rw [List.take_left' h, List.drop_left' h]
  have hplen : (List.zipWith Nat.xor pt (ksRange key nonce pt.length) ++
      tagBytes key nonce pt).length - 16 =
      (List.zipWith Nat.xor pt (ksRange key nonce pt.length)).length := by
    rw [List.length_append, htag]
    omega
  rw [hplen, List.take_left, List.drop_left, hct, zipWith_xor_cancel _ _ hks.symm]
  rw [if_pos rfl]

theorem zipWith_xor_lt :
    ∀ (pt ks : List Nat), (∀ b ∈ pt, b < 256) → (∀ b ∈ ks, b < 256) →
      ∀ b ∈ List.zipWith Nat.xor pt ks, b < 256 := by
  intro pt
  induction pt with
  | nil =>
    intro ks _ _ b hb
    simp at hb
  | cons a ptl ih =>
    intro ks hpt hks b hb
    match ks with
    | [] => simp at hb
    | k :: ksl =>
      simp only [List.zipWith_cons_cons, List.mem_cons] at hb
      rcases hb with h | h
      · subst h
        have h8 : (256 : Nat) = 2 ^ 8 := by norm_num
        rw [h8]
        exact Nat.xor_lt_two_pow (by rw [← h8]; exact hpt a (by simp))
          (by rw [← h8]; exact hks k (by simp))
      · exact ih ksl (fun x hx => hpt x (by simp [hx])) (fun x hx => hks x (by simp [hx])) b h

/-- Each byte of an encryption is a genuine byte when the plaintext and
nonce bytes are. -/
theorem ekkaEncrypt_bytes_lt (pt key nonce : List Nat)
    (hpt : ∀ b ∈ pt, b < 256) (hn : ∀ b ∈ nonce, b < 256) :
    ∀ b ∈ ekkaEncrypt pt key nonce, b < 256 := by
  intro b hb
  simp only [ekkaEncrypt, List.mem_cons, List.mem_append] at hb
  rcases hb with h1 | h2 | h3 | h4
  · omega
  · exact hn b h2
  · refine zipWith_xor_lt pt _ hpt ?_ b h3
    intro x hx
    simp only [ksRange, List.mem_map] at hx
    obtain ⟨i, _, hi⟩ := hx
    simp only [ksByte] at hi
    omega
  · simp only [tagBytes, List.mem_map] at h4
    obtain ⟨j, _, hj⟩ := h4
    omega

-- =========================================================================
-- Encrypted envelope (`node_vault_store.rs::EncryptedEnvelope`) and its
-- JSON form (the serde derive is external; serialization is modelled in
-- a canonical compact shape with the same two fields)
-- =========================================================================

/-- On-disk envelope: version and base64 payload bytes. -/
structure EncryptedEnvelope where
  v : Nat
  data_b64 : List Nat
deriving DecidableEq

/-- The envelope version the reader supports (`CURRENT_VERSION = 1`). -/
def envelopeCurrentVersion : Nat := 1

def envJsonA : List Nat := strBytes "\x7b\"v\":"

def envJsonB : List Nat := strBytes ",\"data_b64\":\""

def envJsonC : List Nat := strBytes "\"\x7d"

/-- Serialize an envelope (model of `serde_json::to_string` for the
two-field struct; pretty-printing whitespace is immaterial and elided). -/
def serializeEnvelope (e : EncryptedEnvelope) : List Nat :=
  envJsonA ++ (strBytes (toString e.v) ++ (envJsonB ++ (e.data_b64 ++ envJsonC)))

/-- Drop a literal from the front of the input, or fail. -/
def dropLiteral (lit bs : List Nat) : Option (List Nat) :=
  if startsWithB bs lit then some (bs.drop lit.length) else none

def isDigitByte (b : Nat) : Bool :=
  48 ≤ b && b ≤ 57

/-- Accumulate decimal digits; stops at the first non-digit. -/
def parseDigitsAux : List Nat → Nat → (Nat × List Nat)
  | [], acc => (acc, [])
  | x :: xs, acc =>
    if isDigitByte x then parseDigitsAux xs (acc * 10 + (x - 48)) else (acc, x :: xs)

/-- Split at the first occurrence of byte `b` (the remainder starts with
`b` when found). -/
def takeUntilByte (b : Nat) : List Nat → (List Nat × List Nat)
  | [] => ([], [])
  | x :: xs =>
    if x == b then ([], x :: xs)
    else
      let r := takeUntilByte b xs
      (x :: r.1, r.2)

/-- Parse an envelope from file bytes (model of
`serde_json::from_str::<EncryptedEnvelope>` restricted to the canonical
serialized shape; any other input is a parse error, which the reader
maps to a failed read either way). -/
def parseEnvelope (bs : List Nat) : Option EncryptedEnvelope :=
  match dropLiteral envJsonA bs with
  | none => none
  | some r1 =>
    match r1 with
    | [] => none
    | d :: _ =>
      if isDigitByte d then
        match parseDigitsAux r1 0 with
        | (n, r2) =>
          match dropLiteral envJsonB r2 with
          | none => none
          | some r3 =>
            match takeUntilByte 34 r3 with
            | (payload, r4) => if r4 == envJsonC then some ⟨n, payload⟩ else none
      else none

theorem startsWithB_append : ∀ (l r : List Nat), startsWithB (l ++ r) l = true := by
  intro l
  induction l with
  | nil =>
    intro r
    simp [startsWithB]
  | cons x xs ih =>
    intro r
    simp [startsWithB, ih]

theorem dropLiteral_append (lit rest : List Nat) :
    dropLiteral lit (lit ++ rest) = some rest := by
  simp [dropLiteral, startsWithB_append, List.drop_left]

theorem takeUntilByte_append (b : Nat) :
    ∀ (p rest : List Nat), b ∉ p → takeUntilByte b (p ++ (b :: rest)) = (p, b :: rest) := by
  intro p
  induction p with
  | nil =>
    intro rest _
    simp [takeUntilByte]
  | cons x xs ih =>
    intro rest hb
    have hx : (x == b) = false := by
      simp only [beq_eq_false_iff_ne, ne_eq]
      intro hh
      exact hb (by simp [hh])
    simp only [List.cons_append, takeUntilByte, hx, Bool.false_eq_true, if_false, List.append_eq]
    rw [ih rest (fun hh => hb (by simp [hh]))]

/-- Parsing a serialized version-1 envelope whose payload avoids the
quote byte recovers the envelope. -/
theorem parseEnvelope_serializeEnvelope (payload : List Nat) (hq : 34 ∉ payload) :
    parseEnvelope (serializeEnvelope ⟨1, payload⟩) = some ⟨1, payload⟩ := by
  have hser : serializeEnvelope ⟨1, payload⟩ =
      envJsonA ++ (49 :: (envJsonB ++ (payload ++ envJsonC))) := by
    unfold serializeEnvelope
    rw [show strBytes (toString (1 : Nat)) = [49] from by decide]
    simp
  have hdig : parseDigitsAux (49 :: (envJsonB ++ (payload ++ envJsonC))) 0 =
      (1, envJsonB ++ (payload ++ envJsonC)) := by
    have hB : envJsonB = 44 :: strBytes "\"data_b64\":\"" := rfl
    rw [hB]
    simp [parseDigitsAux, isDigitByte, List.cons_append]
  have hC : envJsonC = 34 :: [125] := rfl
  have htake : takeUntilByte 34 (payload ++ envJsonC) = (payload, envJsonC) := by
    rw [hC]
    exact takeUntilByte_append 34 payload [125] hq
  simp only [hser, parseEnvelope, dropLiteral_append, hdig, htake]
  simp [isDigitByte]

-- =========================================================================
-- Node vault store (`node_vault_store.rs`)
-- =========================================================================

/-- Fixed secret identifier for node credentials
(`SECRET_ID_NODE_CREDENTIALS`). -/
def secretIdNodeCredentials : String := "node_credentials"

/-- Model of `write_node_secret`: derive the key (loading or creating the
device secret), AEAD-encrypt with a fresh 12-byte nonce from the stream
`rngN`, wrap in a version-1 envelope, serialize, write to the temp file
and rename it over the destination.  `ensure_dirs`, permissions and
`fsync` have no counterpart in the file-map model. -/
def writeNodeSecret (home : String) (epoch : Nat) (sid : String) (pt : List Nat)
    (fs : Fs) (rngD rngN : Nat → Nat) : Except String Fs :=
  match deriveNodeVaultKey home epoch fs rngD with
  | Except.error e => Except.error e
  | Except.ok (key, fs1) =>
    let nonce := (List.range 12).map (fun i => rngN i % 256)
    let encrypted := ekkaEncrypt pt key nonce
    let json := serializeEnvelope ⟨envelopeCurrentVersion, b64EncodeBytes encrypted⟩
    let fs2 := fsWrite fs1 (vaultTempPath home sid) json
    Except.ok (fsWrite (fsRemove fs2 (vaultTempPath home sid)) (vaultSecretPath home sid) json)

/-- Model of `read_node_secret`: absent file reads as `none`; otherwise
parse the envelope, check the version, base64-decode, derive the key and
decrypt, each failure being a hard error. -/
def readNodeSecret (home : String) (epoch : Nat) (sid : String) (fs : Fs)
    (rngD : Nat → Nat) : Except String (Option (List Nat) × Fs) :=
  match fsRead fs (vaultSecretPath home sid) with
  | none => Except.ok (none, fs)
  | some content =>
    match parseEnvelope content with
    | none => Except.error "JSON parse error"
    | some env =>
      if env.v ≠ envelopeCurrentVersion then Except.error "Unsupported envelope version"
      else
        match b64DecodeBytes env.data_b64 with
        | none => Except.error "Base64 decode failed"
        | some encrypted =>
          match deriveNodeVaultKey home epoch fs rngD with
          | Except.error e => Except.error e
          | Except.ok (key, fs') =>
            match ekkaDecrypt encrypted key with
            | Except.error e => Except.error e
            | Except.ok pt => Except.ok (some pt, fs')

/-- Model of `has_node_secret`: a bare existence check, no decryption. -/
def hasNodeSecret (home sid : String) (fs : Fs) : Bool :=
  fsExists fs (vaultSecretPath home sid)

/-- Model of `delete_node_secret` (idempotent). -/
def deleteNodeSecret (home sid : String) (fs : Fs) : Fs :=
  fsRemove fs (vaultSecretPath home sid)

/-- Key derivation is stable under file-map changes away from the device
secret path, and after a successful derivation the device secret file is
present, so deriving again returns the same key without changing the map. -/
theorem deriveNodeVaultKey_stable (home : String) (epoch : Nat) (fs fs2 : Fs)
    (rngD rngD' : Nat → Nat) (key : List Nat) (fs1 : Fs)
    (hderiv : deriveNodeVaultKey home epoch fs rngD = Except.ok (key, fs1))
    (hsame : fsRead fs2 (deviceSecretPath home) = fsRead fs1 (deviceSecretPath home)) :
    deriveNodeVaultKey home epoch fs2 rngD' = Except.ok (key, fs2) := by
  unfold deriveNodeVaultKey loadOrCreateDeviceSecret at hderiv ⊢
  cases hread : fsRead fs (deviceSecretPath home) with
  | some bytes =>
    rw [hread] at hderiv
    by_cases hlen : bytes.length < 32
    · simp [hlen] at hderiv
    · simp only [hlen, if_false, reduceIte] at hderiv
      have hkey : key = deriveKey (hexEncode (bytes.take 32)) (strBytes "node-vault-context")
          epoch (strBytes "node-vault") := by
        cases hderiv
        rfl
      have hfs1 : fs1 = fs := by
        cases hderiv
        rfl
      rw [hsame, hfs1, hread]
      simp [hlen, hkey]
  | none =>
    rw [hread] at hderiv
    simp only [Except.ok.injEq, Prod.mk.injEq] at hderiv
    obtain ⟨hkey, hfs1⟩ := hderiv
    have hsec : fsRead fs1 (deviceSecretPath home) =
        some ((List.range 32).map (fun i => rngD i % 256)) := by
      rw [← hfs1]
      exact fsRead_fsWrite_same _ _ _
    rw [hsame, hsec]
    have h32 : ((List.range 32).map (fun i => rngD i % 256)).length = 32 := by simp
    simp only [h32]
    norm_num
    rw [List.take_of_length_le (by simp)]
    exact hkey

/-- Writing a vault secret and then reading it back under the same
(home, epoch) recovers exactly the plaintext, with no change to the file
map beyond the write itself. -/
theorem writeNodeSecret_readNodeSecret (home sid : String) (epoch : Nat) (pt : List Nat)
    (fs fs' : Fs) (rngD rngN rngD' : Nat → Nat)
    (hpt : ∀ b ∈ pt, b < 256)
    (hw : writeNodeSecret home epoch sid pt fs rngD rngN = Except.ok fs') :
    readNodeSecret home epoch sid fs' rngD' = Except.ok (some pt, fs') := by
  unfold writeNodeSecret at hw
  cases hderiv : deriveNodeVaultKey home epoch fs rngD with
  | error e =>
    rw [hderiv] at hw
    simp at hw
  | ok kf =>
    obtain ⟨key, fs1⟩ := kf
    rw [hderiv] at hw
    simp only [Except.ok.injEq] at hw
    have hnonce : ∀ b ∈ (List.range 12).map (fun i => rngN i % 256), b < 256 := by
      intro b hb
      simp only [List.mem_map] at hb
      obtain ⟨i, _, hi⟩ := hb
      omega
    have hnlen : ((List.range 12).map (fun i => rngN i % 256)).length = 12 := by simp
    have henc := ekkaEncrypt_bytes_lt pt key _ hpt hnonce
    have hq : 34 ∉ b64EncodeBytes (ekkaEncrypt pt key ((List.range 12).map (fun i => rngN i % 256))) := by
      intro hmem
      exact b64Encode_ne_quote _ _ (Nat.le_refl _) 34 hmem rfl
    have hreadSecret : fsRead fs' (vaultSecretPath home sid) =
        some (serializeEnvelope ⟨envelopeCurrentVersion,
          b64EncodeBytes (ekkaEncrypt pt key ((List.range 12).map (fun i => rngN i % 256)))⟩) := by
      rw [← hw]
      exact fsRead_fsWrite_same _ _ _
    have hreadDevice : fsRead fs' (deviceSecretPath home) = fsRead fs1 (deviceSecretPath home) := by
      rw [← hw]
      rw [fsRead_fsWrite_other _ _ _ _ (Ne.symm (vaultSecretPath_ne_deviceSecretPath home sid))]
      rw [fsRead_fsRemove_other _ _ _ (Ne.symm (vaultTempPath_ne_deviceSecretPath home sid))]
      rw [fsRead_fsWrite_other _ _ _ _ (Ne.symm (vaultTempPath_ne_deviceSecretPath home sid))]
    have hderiv' : deriveNodeVaultKey home epoch fs' rngD' = Except.ok (key, fs') :=
      deriveNodeVaultKey_stable home epoch fs fs' rngD rngD' key fs1 hderiv hreadDevice
    unfold readNodeSecret
    rw [hreadSecret]
    simp only [envelopeCurrentVersion]
    rw [parseEnvelope_serializeEnvelope _ hq]
    simp only [ne_eq, not_true_eq_false, if_false, reduceIte]
    simp only [b64_roundtrip _ henc, hderiv', ekkaDecrypt_ekkaEncrypt pt key _ hnlen]

-- =========================================================================
-- Claim C1
-- =========================================================================

/-- C1: for every plaintext byte string P, home directory and epoch,
decrypting with the node-vault key what was encrypted with it returns
exactly P, and `write_node_secret` followed by `read_node_secret` for
the same (home, epoch, secret_id) returns `Some(P)`. -/
theorem C1_vault_roundtrip :
    (∀ (key nonce pt : List Nat), nonce.length = 12 →
      ekkaDecrypt (ekkaEncrypt pt key nonce) key = Except.ok pt) ∧
    (∀ (home sid : String) (epoch : Nat) (pt : List Nat) (fs fs' : Fs)
        (rngD rngN rngD' : Nat → Nat), (∀ b ∈ pt, b < 256) →
      writeNodeSecret home epoch sid pt fs rngD rngN = Except.ok fs' →
      readNodeSecret home epoch sid fs' rngD' = Except.ok (some pt, fs')) := by
  constructor
  · intro key nonce pt h
    exact ekkaDecrypt_ekkaEncrypt pt key nonce h
  · intro home sid epoch pt fs fs' rngD rngN rngD' hpt hw
    exact writeNodeSecret_readNodeSecret home sid epoch pt fs fs' rngD rngN rngD' hpt hw

/-- Concrete file map produced by one vault write, for the C1 witness. -/
def c1WitnessFs : Fs :=
  (writeNodeSecret "home" 1 secretIdNodeCredentials (strBytes "hello secret") []
    (fun i => i) (fun i => i + 7)).toOption.getD []

theorem C1_vault_roundtrip_witness :
    ekkaDecrypt (ekkaEncrypt (strBytes "abc") (strBytes "key") (List.range 12))
        (strBytes "key") = Except.ok (strBytes "abc") ∧
    readNodeSecret "home" 1 secretIdNodeCredentials c1WitnessFs (fun i => i) =
      Except.ok (some (strBytes "hello secret"), c1WitnessFs) :=
  ⟨C1_vault_roundtrip.1 (strBytes "key") (List.range 12) (strBytes "abc") (by decide),
    C1_vault_roundtrip.2 "home" secretIdNodeCredentials 1 (strBytes "hello secret") []
      c1WitnessFs (fun i => i) (fun i => i + 7) (fun i => i) (by decide) rfl⟩

-- =========================================================================
-- UUIDs (model of the `uuid` crate where the repository parses and
-- prints node / tenant / workspace / session ids)
-- =========================================================================

/-- A UUID as its 16 bytes. -/
structure Uuid where
  bytes : List Nat
deriving DecidableEq

/-- Value of one hex digit byte (both cases), or `none`. -/
def hexVal (c : Nat) : Option Nat :=
  if 48 ≤ c ∧ c ≤ 57 then some (c - 48)
  else if 97 ≤ c ∧ c ≤ 102 then some (c - 87)
  else if 65 ≤ c ∧ c ≤ 70 then some (c - 55)
  else none

/-- Parse pairs of hex digits into bytes. -/
def parseHexPairs : List Nat → Option (List Nat)
  | [] => some []
  | c1 :: c2 :: rest =>
    match hexVal c1, hexVal c2, parseHexPairs rest with
    | some h, some l, some bs => some ((h * 16 + l) :: bs)
    | _, _, _ => none
  | _ => none

/-- Model of `Uuid::parse_str`, restricted to the hyphenated
(8-4-4-4-12) and simple (32 hex digits) formats the repository actually
exercises (the crate additionally accepts urn/braced forms). -/
def parseUuid (s : List Nat) : Option Uuid :=
  if s.length = 36 ∧ s.getD 8 0 = 45 ∧ s.getD 13 0 = 45 ∧ s.getD 18 0 = 45 ∧ s.getD 23 0 = 45
  then
    match parseHexPairs ((s.take 8) ++ ((s.drop 9).take 4) ++ ((s.drop 14).take 4) ++
        ((s.drop 19).take 4) ++ (s.drop 24)) with
    | some bs => some ⟨bs⟩
    | none => none
  else if s.length = 32 then
    match parseHexPairs s with
    | some bs => some ⟨bs⟩
    | none => none
  else none

/-- Model of `Uuid::to_string` (lowercase hyphenated form). -/
def uuidToStr (u : Uuid) : List Nat :=
  let h := hexEncode u.bytes
  h.take 8 ++ (45 :: ((h.drop 8).take 4 ++ (45 :: ((h.drop 12).take 4 ++
    (45 :: ((h.drop 16).take 4 ++ (45 :: h.drop 20)))))))

-- =========================================================================
-- Node auth token cache (`node_credentials.rs::NodeAuthToken{Holder}`),
-- claim C5
-- =========================================================================

/-- In-memory node auth token (`NodeAuthToken`); `expires_at` is in
seconds on the same clock as the explicit `now` arguments. -/
structure NodeAuthToken where
  token : List Nat
  node_id : Uuid
  tenant_id : Uuid
  workspace_id : Uuid
  session_id : Uuid
  expires_at : Int
deriving DecidableEq

/-- Model of `NodeAuthToken::is_expired`: expired when `now` plus a 60
second buffer has reached `expires_at`. -/
def NodeAuthToken.isExpired (now : Int) (t : NodeAuthToken) : Bool :=
  decide (now + 60 ≥ t.expires_at)

/-- Model of `NodeAuthTokenHolder::get` (the `RwLock` contents are the
`Option`; lock poisoning is not modelled). -/
def tokenGet (holder : Option NodeAuthToken) : Option NodeAuthToken :=
  holder

/-- Model of `NodeAuthTokenHolder::get_valid`. -/
def tokenGetValid (now : Int) (holder : Option NodeAuthToken) : Option NodeAuthToken :=
  match tokenGet holder with
  | none => none
  | some t => if NodeAuthToken.isExpired now t then none else some t

/-- C5: `get_valid()` returns the cached token exactly when one is
present and its `expires_at` lies more than 60 seconds after `now`; a
token expiring 30 seconds from now is invalid, one expiring 120 seconds
from now is valid. -/
theorem C5_get_valid_margin (now : Int) :
    (∀ (holder : Option NodeAuthToken) (t : NodeAuthToken),
      tokenGetValid now holder = some t ↔ holder = some t ∧ now + 60 < t.expires_at) ∧
    (∀ t : NodeAuthToken, t.expires_at = now + 30 → tokenGetValid now (some t) = none) ∧
    (∀ t : NodeAuthToken, t.expires_at = now + 120 → tokenGetValid now (some t) = some t) := by
  refine ⟨?_, ?_, ?_⟩
  · intro holder t
    cases holder with
    | none => simp [tokenGetValid, tokenGet]
    | some t' =>
      simp only [tokenGetValid, tokenGet, NodeAuthToken.isExpired]
      by_cases h : now + 60 ≥ t'.expires_at
      · rw [if_pos (by simpa using h)]
        constructor
        · intro hh
          simp at hh
        · rintro ⟨heq, hlt⟩
          injection heq with heq
          subst heq
          omega
      · rw [if_neg (by simpa using h)]
        constructor
        · intro hh
          injection hh with hh
          subst hh
          exact ⟨rfl, by omega⟩
        · rintro ⟨heq, _⟩
          exact heq
  · intro t ht
    simp [tokenGetValid, tokenGet, NodeAuthToken.isExpired]
    omega
  · intro t ht
    simp only [tokenGetValid, tokenGet, NodeAuthToken.isExpired]
    rw [if_neg (by simp; omega)]

/-- A concrete all-zero UUID used by several witnesses. -/
def uuidZero : Uuid := ⟨List.replicate 16 0⟩

/-- A concrete token expiring at time 120 on the model clock. -/
def c5Token : NodeAuthToken :=
  ⟨strBytes "tok", uuidZero, uuidZero, uuidZero, uuidZero, 120⟩

theorem C5_get_valid_margin_witness :
    (tokenGetValid 0 (some c5Token) = some c5Token ↔
      some c5Token = some c5Token ∧ (0 : Int) + 60 < c5Token.expires_at) ∧
    tokenGetValid 0 (some c5Token) = some c5Token :=
  ⟨(C5_get_valid_margin 0).1 (some c5Token) c5Token,
    (C5_get_valid_margin 0).2.2 c5Token (by decide)⟩

-- =========================================================================
-- Node auth single-flight guard (`state.rs::NodeAuthState{Holder}`),
-- claim C6
-- =========================================================================

/-- The four auth states (`state.rs::NodeAuthState`). -/
inductive NodeAuthState where
  | unauthenticated
  | authenticating
  | authenticated
  | failed
deriving DecidableEq

/-- Model of `NodeAuthStateHolder::try_start`: the compare-and-set under
the state lock, returning whether the caller may authenticate together
with the new state. -/
def tryStart : NodeAuthState → Bool × NodeAuthState
  | NodeAuthState.unauthenticated => (true, NodeAuthState.authenticating)
  | s => (false, s)

/-- Model of `NodeAuthStateHolder::set_authenticated`. -/
def setAuthenticated (_ : NodeAuthState) : NodeAuthState :=
  NodeAuthState.authenticated

/-- Model of `NodeAuthStateHolder::set_failed`. -/
def setFailed (_ : NodeAuthState) : NodeAuthState :=
  NodeAuthState.failed

/-- C6: `try_start()` returns true exactly from `Unauthenticated`, then
moving to `Authenticating`; from any other state it returns false and
leaves the state unchanged; hence of two consecutive `try_start()`
calls from `Unauthenticated`, exactly the first returns true. -/
theorem C6_try_start_single_flight :
    (∀ s : NodeAuthState, (tryStart s).1 = true ↔ s = NodeAuthState.unauthenticated) ∧
    tryStart NodeAuthState.unauthenticated = (true, NodeAuthState.authenticating) ∧
    (∀ s : NodeAuthState, s ≠ NodeAuthState.unauthenticated → tryStart s = (false, s)) ∧
    ((tryStart NodeAuthState.unauthenticated).1 = true ∧
      (tryStart (tryStart NodeAuthState.unauthenticated).2).1 = false) := by
  refine ⟨?_, rfl, ?_, by decide⟩
  · intro s
    cases s <;> simp [tryStart]
  · intro s h
    cases s
    · exact absurd rfl h
    · rfl
    · rfl
    · rfl

theorem C6_try_start_single_flight_witness :
    ((tryStart NodeAuthState.failed).1 = true ↔
      NodeAuthState.failed = NodeAuthState.unauthenticated) ∧
    tryStart NodeAuthState.failed = (false, NodeAuthState.failed) :=
  ⟨C6_try_start_single_flight.1 NodeAuthState.failed,
    C6_try_start_single_flight.2.2.1 NodeAuthState.failed (by decide)⟩

-- =========================================================================
-- Runner status tracker and error sanitizer (`state.rs`), claims C8, C9
-- =========================================================================

/-- Runner loop state (`state.rs::RunnerLoopState`). -/
inductive RunnerLoopState where
  | running
  | stopped
  | error
deriving DecidableEq

/-- Observable runner status (`state.rs::RunnerStatus`); timestamps are
model-clock integers, strings are byte lists. -/
structure RunnerStatus where
  enabled : Bool
  state : RunnerLoopState
  runner_id : Option (List Nat)
  engine_url : Option (List Nat)
  last_poll_at : Option Int
  last_claim_at : Option Int
  last_complete_at : Option Int
  last_task_id : Option (List Nat)
  last_error : Option (List Nat)
deriving DecidableEq

/-- Model of `RunnerStatus::default()` (the engine URL read from the
environment is a parameter). -/
def runnerStatusDefault (engineUrl : Option (List Nat)) : RunnerStatus :=
  ⟨false, RunnerLoopState.stopped, none, engineUrl, none, none, none, none, none⟩

/-- Split a byte list on a separator byte; always at least one segment. -/
def splitOnByte (b : Nat) : List Nat → List (List Nat)
  | [] => [[]]
  | x :: xs =>
    if x == b then [] :: splitOnByte b xs
    else
      match splitOnByte b xs with
      | [] => [[x]]
      | l :: ls => (x :: l) :: ls

/-- Strip one trailing carriage return (13), as Rust `lines()` does for
lines that were terminated by a newline. -/
def rstripCR (l : List Nat) : List Nat :=
  if l.getLast? = some 13 then l.dropLast else l

/-- Model of Rust `str::lines` on UTF-8 bytes: split on newline (10);
every segment but the last was newline-terminated and loses one
trailing 13; a final empty segment (trailing newline) yields no line. -/
def linesB (s : List Nat) : List (List Nat) :=
  let parts := splitOnByte 10 s
  let finalPart := parts.getLastD []
  let initParts := (parts.dropLast).map rstripCR
  if finalPart = [] then initParts else initParts ++ [finalPart]

/-- Join byte lists with a separator byte (model of `join(" ")`). -/
def joinWithByte (sep : Nat) : List (List Nat) → List Nat
  | [] => []
  | [l] => l
  | l :: ls => l ++ sep :: joinWithByte sep ls

/-- Per-line redaction from `state.rs::sanitize_error`: a line is
replaced when it contains a slash and one of the marker substrings
home / Users / tmp. -/
def redactLine (l : List Nat) : List Nat :=
  if containsByte l 47 &&
      (containsSub l (strBytes "home") || containsSub l (strBytes "Users") ||
        containsSub l (strBytes "tmp"))
  then strBytes "[path redacted]"
  else l

/-- Rust `str::is_char_boundary` at index `i` of a UTF-8 byte list:
true at the end of the string and at any byte that is not a UTF-8
continuation byte. -/
def isCharBoundaryAt (s : List Nat) (i : Nat) : Bool :=
  match s.get? i with
  | none => true
  | some b => !(decide (128 ≤ b) && decide (b < 192))

/-- Model of `state.rs::sanitize_error`: redact marked lines, join with
spaces, and truncate to 200 bytes with an ellipsis when longer.  The
truncation `&sanitized[..200]` is a Rust byte slice: when byte 200 is
not a character boundary it panics, modelled as `Except.error ()`. -/
def sanitizeError (e : List Nat) : Except Unit (List Nat) :=
  let sanitized := joinWithByte 32 ((linesB e).map redactLine)
  if sanitized.length > 200 then
    if isCharBoundaryAt sanitized 200 then
      Except.ok (sanitized.take 200 ++ strBytes "...")
    else Except.error ()
  else Except.ok sanitized

/-- Model of `RunnerState::record_error`: set the error state and store
the sanitized message (propagating the sanitizer's panic). -/
def recordError (st : RunnerStatus) (e : List Nat) : Except Unit RunnerStatus :=
  match sanitizeError e with
  | Except.error u => Except.error u
  | Except.ok s =>
    Except.ok { st with state := RunnerLoopState.error, last_error := some s }

theorem splitOnByte_no_sep (b : Nat) :
    ∀ (s : List Nat), b ∉ s → splitOnByte b s = [s] := by
  intro s
  induction s with
  | nil =>
    intro _
    rfl
  | cons x xs ih =>
    intro h
    have hx : (x == b) = false := by
      simp only [beq_eq_false_iff_ne, ne_eq]
      intro hh
      exact h (by simp [hh])
    simp only [splitOnByte, hx, Bool.false_eq_true, if_false]
    rw [ih (fun hh => h (by simp [hh]))]

theorem linesB_single (s : List Nat) (hnl : 10 ∉ s) (hne : s ≠ []) :
    linesB s = [s] := by
  unfold linesB
  rw [splitOnByte_no_sep 10 s hnl]
  simp [hne]

/-- C8 (amended): a line is replaced by `[path redacted]` exactly when
it contains a slash together with one of the marker substrings `home`,
`Users`, `tmp`; lines with paths lacking those markers are stored
unchanged; a marker-free path can therefore reach `last_error`. -/
theorem C8_sanitize_redaction (e : List Nat) :
    (∀ l ∈ linesB e,
      (containsByte l 47 = true ∧
        (containsSub l (strBytes "home") = true ∨ containsSub l (strBytes "Users") = true ∨
          containsSub l (strBytes "tmp") = true)) →
        redactLine l = strBytes "[path redacted]") ∧
    (∀ l ∈ linesB e,
      (containsByte l 47 = false ∨
        (containsSub l (strBytes "home") = false ∧ containsSub l (strBytes "Users") = false ∧
          containsSub l (strBytes "tmp") = false)) →
        redactLine l = l) ∧
    (10 ∉ e → containsByte e 47 = true →
      (containsSub e (strBytes "home") = true ∨ containsSub e (strBytes "Users") = true ∨
        containsSub e (strBytes "tmp") = true) →
      sanitizeError e = Except.ok (strBytes "[path redacted]")) := by
  have hredact : ∀ l : List Nat,
      containsByte l 47 = true →
      (containsSub l (strBytes "home") = true ∨ containsSub l (strBytes "Users") = true ∨
        containsSub l (strBytes "tmp") = true) →
      redactLine l = strBytes "[path redacted]" := by
    intro l h1 h2
    unfold redactLine
    rcases h2 with h | h | h <;> simp [h1, h]
  refine ⟨?_, ?_, ?_⟩
  · intro l _ hcond
    exact hredact l hcond.1 hcond.2
  · intro l _ hcond
    unfold redactLine
    rcases hcond with h | ⟨h1, h2, h3⟩
    · simp [h]
    · simp [h1, h2, h3]
  · intro hnl h1 h2
    have hne : e ≠ [] := by
      intro he
      subst he
      simp [containsByte] at h1
    unfold sanitizeError
    rw [linesB_single e hnl hne]
    simp only [List.map_cons, List.map_nil, hredact e h1 h2]
    have hlen : (joinWithByte 32 [strBytes "[path redacted]"]).length = 15 := by decide
    rw [if_neg (by rw [hlen]; omega)]
    rfl

/-- Concrete sanitizer outcome for the C8 witness input `/home/user/f`. -/
theorem C8_sanitize_redaction_witness :
    sanitizeError (strBytes "/home/user/f") = Except.ok (strBytes "[path redacted]") :=
  (C8_sanitize_redaction (strBytes "/home/user/f")).2.2 (by decide) (by decide)
    (Or.inl (by decide))

/-- C8 counterexample: the error string `/etc/passwd` is a filesystem
path, contains a slash, yet is stored verbatim in `last_error` (it has
none of the markers `home`/`Users`/`tmp`), so the claim that every line
containing a filesystem path is replaced by `[path redacted]` is false
on the code. -/
theorem C8_sanitize_counterexample :
    sanitizeError (strBytes "/etc/passwd") = Except.ok (strBytes "/etc/passwd") ∧
    recordError (runnerStatusDefault none) (strBytes "/etc/passwd") =
      Except.ok { runnerStatusDefault none with
        state := RunnerLoopState.error, last_error := some (strBytes "/etc/passwd") } ∧
    containsByte (strBytes "/etc/passwd") 47 = true ∧
    strBytes "/etc/passwd" ≠ strBytes "[path redacted]" := by
  refine ⟨by decide, ?_, by decide, by decide⟩
  rfl

-- =========================================================================
-- Claim C9: totality of the sanitizer
-- =========================================================================

/-- A 201-byte UTF-8 string: 199 `a` bytes followed by the two-byte
encoding of `é` (195, 169).  Byte 200 falls inside the final character. -/
def c9Input : List Nat := List.replicate 199 97 ++ [195, 169]

set_option maxRecDepth 4000

/-- C9 fails on the code: on `c9Input` the 200-byte truncation slices a
UTF-8 character in half, so `&sanitized[..200]` panics and neither
`sanitize_error` nor `record_error` is total (modelled as
`Except.error ()`); the result-size bound is vacuous there. -/
theorem C9_sanitize_truncation_panics :
    sanitizeError c9Input = Except.error () ∧
    recordError (runnerStatusDefault none) c9Input = Except.error () ∧
    c9Input.length = 201 ∧ (∀ b ∈ c9Input, b < 256) ∧
    isCharBoundaryAt c9Input 200 = false := by
  refine ⟨by decide, by decide, by decide, by decide, by decide⟩

-- =========================================================================
-- Poll backoff (`node_runner.rs::run_node_session_runner_loop`),
-- claim C4
-- =========================================================================

/-- `POLL_INTERVAL_SECS`. -/
def pollIntervalSecs : Nat := 5

/-- `MAX_CONSECUTIVE_ERRORS`. -/
def maxConsecutiveErrors : Nat := 3

/-- `MAX_BACKOFF_SECS`. -/
def maxBackoffSecs : Nat := 60

/-- Model of the backoff computation in the runner loop's `Err` branch,
with release-profile Rust integer semantics: in `1u64 << n` the shift
amount is masked modulo 64, and the `u64` product wraps modulo `2^64`
(with debug assertions the same overflows would panic instead). -/
def backoffSecs (consecutiveErrors : Nat) : Nat :=
  if consecutiveErrors ≥ maxConsecutiveErrors then
    min ((pollIntervalSecs * (1 <<< ((consecutiveErrors - maxConsecutiveErrors) % 64))) % 2 ^ 64)
      maxBackoffSecs
  else pollIntervalSecs

/-- One iteration of the loop's error bookkeeping: a successful poll
resets the counter and the steady-state wait is the poll interval; a
failed poll increments the counter and waits `backoffSecs` of the new
count.  Returns (new counter, wait seconds). -/
def loopStepWait (errors : Nat) (pollOk : Bool) : Nat × Nat :=
  if pollOk then (0, pollIntervalSecs)
  else (errors + 1, backoffSecs (errors + 1))

/-- C4 fails on the code at 67 consecutive failures: for counts 4..66
the wait is `min (5 * 2 ^ (count - 3)) 60`, strictly above the base
interval and at most 60; a success resets the counter and the wait; but
at count 67 the masked shift amount wraps to 0 and the wait collapses
to the 5-second base interval instead of the claimed 60. -/
theorem C4_backoff_shift_wraparound :
    backoffSecs 1 = 5 ∧ backoffSecs 2 = 5 ∧ backoffSecs 3 = 5 ∧
    backoffSecs 4 = 10 ∧ backoffSecs 5 = 20 ∧ backoffSecs 6 = 40 ∧
    backoffSecs 7 = 60 ∧ backoffSecs 66 = 60 ∧
    backoffSecs 67 = 5 ∧
    ((List.range 63).all fun k =>
      decide (5 < backoffSecs (k + 4) ∧ backoffSecs (k + 4) ≤ 60 ∧
        backoffSecs (k + 4) = min (5 * 2 ^ (k + 1)) 60)) = true ∧
    loopStepWait 3 false = (4, 10) ∧
    loopStepWait 41 true = (0, 5) ∧
    loopStepWait 66 false = (67, 5) := by
  refine ⟨rfl, rfl, rfl, rfl, rfl, rfl, rfl, by decide, by decide, by decide, rfl, rfl, by decide⟩

-- =========================================================================
-- Secret-error classification (`node_credentials.rs::is_secret_error`),
-- claim C3
-- =========================================================================

/-- Outcome of deserializing `AuthErrorResponse` from a body: the
optional `error` field. -/
structure AuthErrorResponse where
  error : Option (List Nat)
deriving DecidableEq

/-- One JSON scalar as seen by the field scanner: a string, a JSON
null, or some other scalar (number / boolean), which serde rejects for
an `Option<String>` field. -/
inductive JsonScalar where
  | str (s : List Nat)
  | nullV
  | other
deriving DecidableEq

/-- Skip JSON whitespace. -/
def skipWs : List Nat → List Nat
  | [] => []
  | x :: xs => if x == 32 || x == 9 || x == 10 || x == 13 then skipWs xs else x :: xs

/-- Parse a JSON string starting at an opening quote; escape sequences
are not modelled (a backslash fails the parse). -/
def parseJsonString (bs : List Nat) : Option (List Nat × List Nat) :=
  match bs with
  | 34 :: rest =>
    match takeUntilByte 34 rest with
    | (content, 34 :: tail) =>
      if 92 ∈ content then none else some (content, tail)
    | _ => none
  | _ => none

def isScalarByte (b : Nat) : Bool :=
  isDigitByte b || b == 45 || b == 46 || b == 43 || b == 101 || b == 69

/-- Parse one scalar value: string, `null`, `true`/`false`, or number. -/
def parseJsonScalar (bs : List Nat) : Option (JsonScalar × List Nat) :=
  match parseJsonString bs with
  | some (s, tail) => some (JsonScalar.str s, tail)
  | none =>
    if startsWithB bs (strBytes "null") then some (JsonScalar.nullV, bs.drop 4)
    else if startsWithB bs (strBytes "true") then some (JsonScalar.other, bs.drop 4)
    else if startsWithB bs (strBytes "false") then some (JsonScalar.other, bs.drop 5)
    else
      match bs with
      | b :: _ =>
        if isScalarByte b then some (JsonScalar.other, bs.dropWhile isScalarByte) else none
      | [] => none

/-- Scan the fields of a JSON object after its opening brace, with fuel. -/
def parseJsonFields : Nat → List Nat → Option (List (List Nat × JsonScalar) × List Nat)
  | 0, _ => none
  | fuel + 1, bs =>
    match parseJsonString (skipWs bs) with
    | none => none
    | some (key, r1) =>
      match skipWs r1 with
      | 58 :: r2 =>
        match parseJsonScalar (skipWs r2) with
        | none => none
        | some (v, r3) =>
          match skipWs r3 with
          | 44 :: r4 =>
            match parseJsonFields fuel r4 with
            | some (fields, tail) => some ((key, v) :: fields, tail)
            | none => none
          | 125 :: r4 => some ([(key, v)], r4)
          | _ => none
      | _ => none

/-- Model of `serde_json::from_str::<AuthErrorResponse>`: a top-level
object of scalar fields; unknown fields are ignored, a missing or null
`error` field gives `none`, a non-string `error` value or a duplicate
`error` field is a deserialization error.  (serde additionally accepts
nested containers as ignored field values and escaped strings; those
bodies do not occur in this subsystem's classifications.) -/
def parseAuthBody (bs : List Nat) : Option AuthErrorResponse :=
  match skipWs bs with
  | 123 :: rest =>
    match skipWs rest with
    | 125 :: tail => if skipWs tail = [] then some ⟨none⟩ else none
    | r =>
      match parseJsonFields (bs.length + 1) r with
      | none => none
      | some (fields, tail) =>
        if skipWs tail = [] then
          match fields.filter (fun f => f.1 == strBytes "error") with
          | [] => some ⟨none⟩
          | [(_, JsonScalar.str v)] => some ⟨some v⟩
          | [(_, JsonScalar.nullV)] => some ⟨none⟩
          | _ => none
        else none
  | _ => none

/-- The three error codes that invalidate a stored secret. -/
def errorInvalidSecret : List Nat := strBytes "invalid_secret"

def errorSecretRevoked : List Nat := strBytes "secret_revoked"

def errorInvalidCredentials : List Nat := strBytes "invalid_credentials"

/-- Model of `node_credentials.rs::is_secret_error`. -/
def isSecretError (status : Nat) (body : List Nat) : Bool :=
  if status == 401 || status == 403 then
    match parseAuthBody body with
    | some err =>
      match err.error with
      | some e =>
        e == errorInvalidSecret || e == errorSecretRevoked || e == errorInvalidCredentials
      | none => false
    | none => false
  else false

/-- C3: `is_secret_error(status, body)` holds exactly when the status is
401 or 403 and the body deserializes with `error` equal to one of
`invalid_secret` / `secret_revoked` / `invalid_credentials`; a 401 with
`rate_limited`, a 401 with a malformed or empty body, and a 200 with a
matching body are all rejected. -/
theorem C3_is_secret_error :
    (∀ (status : Nat) (body : List Nat),
      isSecretError status body = true ↔
        ((status = 401 ∨ status = 403) ∧
          ∃ e, parseAuthBody body = some ⟨some e⟩ ∧
            (e = errorInvalidSecret ∨ e = errorSecretRevoked ∨ e = errorInvalidCredentials))) ∧
    isSecretError 401 (strBytes "\x7b\"error\":\"invalid_secret\"\x7d") = true ∧
    isSecretError 401 (strBytes "\x7b\"error\":\"secret_revoked\"\x7d") = true ∧
    isSecretError 403 (strBytes "\x7b\"error\":\"invalid_credentials\"\x7d") = true ∧
    isSecretError 401 (strBytes "\x7b\"error\":\"rate_limited\"\x7d") = false ∧
    isSecretError 401 (strBytes "not json") = false ∧
    isSecretError 401 [] = false ∧
    isSecretError 401 (strBytes "\x7b\"message\":\"error\"\x7d") = false ∧
    isSecretError 200 (strBytes "\x7b\"error\":\"invalid_secret\"\x7d") = false := by
  refine ⟨?_, by decide, by decide, by decide, by decide, by decide, by decide, by decide,
    by decide⟩
  intro status body
  unfold isSecretError
  by_cases hst : status == 401 || status == 403
  · rw [if_pos hst]
    have hst' : status = 401 ∨ status = 403 := by
      rcases Bool.or_eq_true_iff.mp hst with h | h
      · exact Or.inl (by simpa using h)
      · exact Or.inr (by simpa using h)
    cases hpb : parseAuthBody body with
    | none =>
      simp only [Bool.false_eq_true, false_iff]
      rintro ⟨_, e, he, _⟩
      cases he
    | some err =>
      obtain ⟨errField⟩ := err
      cases errField with
      | none =>
        simp only [Bool.false_eq_true, false_iff]
        rintro ⟨_, e, he, _⟩
        simp at he
      | some e0 =>
        simp only []
        constructor
        · intro hcode
          refine ⟨hst', e0, rfl, ?_⟩
          simp only [Bool.or_eq_true, beq_iff_eq] at hcode
          tauto
        · rintro ⟨_, e', he', hcodes⟩
          simp only [Option.some.injEq, AuthErrorResponse.mk.injEq] at he'
          subst he'
          rcases hcodes with h | h | h <;> simp [h]
  · rw [if_neg ?_]
    · simp only [Bool.false_eq_true, false_iff]
      rintro ⟨hs, _⟩
      rcases hs with h | h <;> subst h <;> simp at hst
    · simpa using hst

-- =========================================================================
-- Node session runner remote calls (`node_runner.rs`), claim C2
-- =========================================================================

/-- In-memory node session (`node_auth.rs::NodeSession`). -/
structure NodeSession where
  token : List Nat
  session_id : Uuid
  tenant_id : Uuid
  workspace_id : Uuid
  expires_at : Int
deriving DecidableEq

/-- Model of `NodeSession::is_expired` (60 second buffer). -/
def NodeSession.isExpired (now : Int) (s : NodeSession) : Bool :=
  decide (now + 60 ≥ s.expires_at)

/-- Model of `NodeSessionHolder::get_valid`. -/
def sessionGetValid (now : Int) (holder : Option NodeSession) : Option NodeSession :=
  match holder with
  | none => none
  | some s => if NodeSession.isExpired now s then none else some s

/-- A pending engine task (`node_runner.rs::EngineTaskInfo`). -/
structure EngineTaskInfo where
  id : List Nat
  run_id : List Nat
  capability_identity : List Nat
  target_type : Option (List Nat)
deriving DecidableEq

/-- One HTTP exchange as the runner observes it: the status, the body
text, and the parsed task payload when the runner asks for JSON
(`none` models a body `response.json()` fails on). -/
structure HttpResp where
  status : Nat
  body : List Nat
  tasks : Option (List EngineTaskInfo)
deriving DecidableEq

/-- The runner's environment: the HTTP response to attempt `i` of the
current call, and the outcome of the `i`-th `authenticate_node`
invocation (spec §4.4; the network is outside the program). -/
structure RunnerEnv where
  resp : Nat → HttpResp
  auth : Nat → Except (List Nat) NodeSession

/-- Observable trace of one remote call: the session cache and counters
for authentications performed, forced cache clears, and HTTP requests
sent. -/
structure RunnerTrace where
  cache : Option NodeSession
  authCalls : Nat
  forcedClears : Nat
  requests : Nat
deriving DecidableEq

/-- Errors a remote call can return (`Err(String)` variants in
`node_runner.rs`, by provenance). -/
inductive CallError where
  | sessionError (msg : List Nat)
  | parseError
  | httpFailed (status : Nat) (bodyTrunc : List Nat)
  | retryExhausted
deriving DecidableEq

/-- Model of `NodeSessionRunner::get_session`: return the cached valid
session, else authenticate via `authenticate_node` (one auth call) and
cache the result. -/
def getSessionT (now : Int) (env : RunnerEnv) (st : RunnerTrace) :
    Except (List Nat) NodeSession × RunnerTrace :=
  match sessionGetValid now st.cache with
  | some s => (Except.ok s, st)
  | none =>
    match env.auth st.authCalls with
    | Except.error e =>
      (Except.error (strBytes "Session refresh failed: " ++ e),
        { st with authCalls := st.authCalls + 1 })
    | Except.ok s =>
      (Except.ok s, { st with authCalls := st.authCalls + 1, cache := some s })

/-- Model of `NodeSessionRunner::force_refresh_session`: clear the
cached session, then `get_session` re-authenticates. -/
def forceRefreshT (now : Int) (env : RunnerEnv) (st : RunnerTrace) :
    Except (List Nat) NodeSession × RunnerTrace :=
  getSessionT now env { st with cache := none, forcedClears := st.forcedClears + 1 }

/-- Model of `NodeSessionRunner::security_headers` (which itself calls
`get_session`; the header values are irrelevant to the claims). -/
def securityHeadersT (now : Int) (env : RunnerEnv) (st : RunnerTrace) :
    Except (List Nat) NodeSession × RunnerTrace :=
  getSessionT now env st

/-- Model of `reqwest::StatusCode::is_success` (2xx). -/
def isSuccessStatus (s : Nat) : Bool :=
  decide (200 ≤ s ∧ s < 300)

/-- Model of `NodeSessionRunner::is_token_expired_error`. -/
def isTokenExpiredError (status : Nat) (body : List Nat) : Bool :=
  status == 401 ||
  containsSub body (strBytes "Token expired") ||
  containsSub body (strBytes "token expired") ||
  containsSub body (strBytes "jwt expired") ||
  containsSub body (strBytes "invalid token")

/-- One iteration of the `for attempt in 0..2` loop shared by
`poll_tasks`, `claim_task`, `complete_task` and `fail_task`: get a
session, build headers (a second `get_session`), send, and either
finish (`Sum.inl`) or signal a retry after a successful forced refresh
(`Sum.inr`).  A non-2xx response is final unless this is attempt 0 and
`is_token_expired_error` holds. -/
def engineCallAttempt (now : Int) (env : RunnerEnv) (st : RunnerTrace) (attempt : Nat) :
    Sum (Except CallError (List EngineTaskInfo) × RunnerTrace) RunnerTrace :=
  match getSessionT now env st with
  | (Except.error e, st1) => Sum.inl (Except.error (CallError.sessionError e), st1)
  | (Except.ok _, st1) =>
    match securityHeadersT now env st1 with
    | (Except.error e, st2) => Sum.inl (Except.error (CallError.sessionError e), st2)
    | (Except.ok _, st2) =>
      let resp := env.resp attempt
      let st3 := { st2 with requests := st2.requests + 1 }
      if isSuccessStatus resp.status then
        match resp.tasks with
        | some ts => Sum.inl (Except.ok ts, st3)
        | none => Sum.inl (Except.error CallError.parseError, st3)
      else
        if attempt == 0 && isTokenExpiredError resp.status resp.body then
          match forceRefreshT now env st3 with
          | (Except.error e, st4) => Sum.inl (Except.error (CallError.sessionError e), st4)
          | (Except.ok _, st4) => Sum.inr st4
        else
          Sum.inl (Except.error (CallError.httpFailed resp.status (resp.body.take 100)), st3)

/-- The whole two-attempt remote call; the `retryExhausted` arm is the
`Err("... failed after retry")` line after the Rust loop (unreachable,
since attempt 1 never signals a retry). -/
def engineCall401Retry (now : Int) (env : RunnerEnv) (st : RunnerTrace) :
    Except CallError (List EngineTaskInfo) × RunnerTrace :=
  match engineCallAttempt now env st 0 with
  | Sum.inl r => r
  | Sum.inr st' =>
    match engineCallAttempt now env st' 1 with
    | Sum.inl r => r
    | Sum.inr st'' => (Except.error CallError.retryExhausted, st'')

/-- `NodeSessionRunner::poll_tasks` (URL and query are irrelevant to the
control flow shared with the other calls). -/
def pollTasksT (now : Int) (env : RunnerEnv) (st : RunnerTrace) :
    Except CallError (List EngineTaskInfo) × RunnerTrace :=
  engineCall401Retry now env st

/-- `NodeSessionRunner::claim_task` (same two-attempt structure). -/
def claimTaskT (_taskId : List Nat) (now : Int) (env : RunnerEnv) (st : RunnerTrace) :
    Except CallError (List EngineTaskInfo) × RunnerTrace :=
  engineCall401Retry now env st

/-- `NodeSessionRunner::complete_task` (same two-attempt structure). -/
def completeTaskT (_taskId _output : List Nat) (now : Int) (env : RunnerEnv)
    (st : RunnerTrace) : Except CallError (List EngineTaskInfo) × RunnerTrace :=
  engineCall401Retry now env st

/-- `NodeSessionRunner::fail_task` (same two-attempt structure). -/
def failTaskT (_taskId _errCode : List Nat) (_retryable : Bool) (now : Int) (env : RunnerEnv)
    (st : RunnerTrace) : Except CallError (List EngineTaskInfo) × RunnerTrace :=
  engineCall401Retry now env st

/-- C2: with a valid cached session, a remote call sends exactly one
request when the first response is 2xx or a non-401-style failure (no
re-authentication, no cache clear in either case); exactly when the
first response is a 401 (or a token-expiry body), the cache is cleared
once and exactly one fresh authentication happens before exactly one
retry; a failure on the retry, 401 included, is final, with two
requests in total. -/
theorem C2_remote_call_401_retry (now : Int) (env : RunnerEnv) (st : RunnerTrace)
    (s0 : NodeSession) (authSession : Nat → NodeSession)
    (hc : st.cache = some s0) (hv : NodeSession.isExpired now s0 = false)
    (hauth : ∀ i, env.auth i = Except.ok (authSession i))
    (hav : ∀ i, NodeSession.isExpired now (authSession i) = false) :
    (∀ ts, isSuccessStatus (env.resp 0).status = true → (env.resp 0).tasks = some ts →
      engineCall401Retry now env st =
        (Except.ok ts, { st with requests := st.requests + 1 })) ∧
    (isSuccessStatus (env.resp 0).status = false →
      isTokenExpiredError (env.resp 0).status (env.resp 0).body = true →
      ((∀ ts, isSuccessStatus (env.resp 1).status = true → (env.resp 1).tasks = some ts →
        engineCall401Retry now env st =
          (Except.ok ts,
            { st with
                cache := some (authSession st.authCalls),
                authCalls := st.authCalls + 1,
                forcedClears := st.forcedClears + 1,
                requests := st.requests + 1 + 1 })) ∧
       (isSuccessStatus (env.resp 1).status = false →
        engineCall401Retry now env st =
          (Except.error (CallError.httpFailed (env.resp 1).status ((env.resp 1).body.take 100)),
            { st with
                cache := some (authSession st.authCalls),
                authCalls := st.authCalls + 1,
                forcedClears := st.forcedClears + 1,
                requests := st.requests + 1 + 1 })))) ∧
    (isSuccessStatus (env.resp 0).status = false →
      isTokenExpiredError (env.resp 0).status (env.resp 0).body = false →
      engineCall401Retry now env st =
        (Except.error (CallError.httpFailed (env.resp 0).status ((env.resp 0).body.take 100)),
          { st with requests := st.requests + 1 })) := by
  refine ⟨?_, ?_, ?_⟩
  · intro ts hsucc hts
    simp [engineCall401Retry, engineCallAttempt, securityHeadersT, getSessionT,
      sessionGetValid, hc, hv, hsucc, hts]
  · intro hns hte
    constructor
    · intro ts hsucc1 hts1
      simp [engineCall401Retry, engineCallAttempt, securityHeadersT, forceRefreshT,
        getSessionT, sessionGetValid, hc, hv, hauth, hav, hns, hte, hsucc1, hts1]
    · intro hns1
      simp [engineCall401Retry, engineCallAttempt, securityHeadersT, forceRefreshT,
        getSessionT, sessionGetValid, hc, hv, hauth, hav, hns, hte, hns1]
  · intro hns hnte
    simp [engineCall401Retry, engineCallAttempt, securityHeadersT, getSessionT,
      sessionGetValid, hc, hv, hns, hnte]

/-- A concrete session expiring at `exp` on the model clock. -/
def c2Session (exp : Int) : NodeSession :=
  ⟨strBytes "tok", uuidZero, uuidZero, uuidZero, exp⟩

/-- Concrete task list returned by the retried poll in the C2 witness. -/
def c2Tasks : List EngineTaskInfo :=
  [⟨strBytes "t1", strBytes "r1", strBytes "ekka.prompt.run.v1", none⟩]

/-- 401 on the first attempt, 200 with one task on the retry; every
authentication succeeds with a session valid until 1000. -/
def c2Env : RunnerEnv :=
  { resp := fun i =>
      if i = 0 then ⟨401, strBytes "", none⟩ else ⟨200, [], some c2Tasks⟩,
    auth := fun _ => Except.ok (c2Session 1000) }

/-- Starting trace: a cached session valid until 500, zero counters. -/
def c2St : RunnerTrace := ⟨some (c2Session 500), 0, 0, 0⟩

theorem C2_remote_call_401_retry_witness :
    engineCall401Retry 0 c2Env c2St =
      (Except.ok c2Tasks,
        { c2St with
            cache := some (c2Session 1000),
            authCalls := c2St.authCalls + 1,
            forcedClears := c2St.forcedClears + 1,
            requests := c2St.requests + 1 + 1 }) :=
  ((C2_remote_call_401_retry 0 c2Env c2St (c2Session 500) (fun _ => c2Session 1000)
      rfl (by decide) (fun _ => rfl)
      (fun _ => show NodeSession.isExpired 0 (c2Session 1000) = false by decide)).2.1
      (by decide) (by decide)).1 c2Tasks (by decide) rfl

-- =========================================================================
-- Node credentials manager (`node_credentials.rs`, and the
-- store-credentials command of `commands.rs`), claims C7, C10
-- =========================================================================

/-- Error type of credential operations (`CredentialsError`). -/
inductive CredentialsError where
  | vaultError (msg : List Nat)
  | invalidNodeId (msg : List Nat)
  | invalidNodeSecret (msg : List Nat)
  | notConfigured
  | authFailed (status : Nat) (body : List Nat)
  | httpError (msg : List Nat)
deriving DecidableEq

/-- Model of `validate_node_id` (`Uuid::parse_str`). -/
def validateNodeId (s : List Nat) : Except CredentialsError Uuid :=
  match parseUuid s with
  | some u => Except.ok u
  | none => Except.error (CredentialsError.invalidNodeId (strBytes "Invalid UUID format"))

/-- Model of `validate_node_secret`: non-empty and at least 16 bytes. -/
def validateNodeSecret (s : List Nat) : Except CredentialsError Unit :=
  if s.length = 0 then
    Except.error (CredentialsError.invalidNodeSecret (strBytes "node_secret cannot be empty"))
  else if s.length < 16 then
    Except.error
      (CredentialsError.invalidNodeSecret (strBytes "node_secret must be at least 16 characters"))
  else Except.ok ()

def credsJsonA : List Nat := strBytes "\x7b\"node_id\":\""

def credsJsonB : List Nat := strBytes "\",\"node_secret\":\""

def credsJsonC : List Nat := strBytes "\"\x7d"

/-- Serialization of `NodeCredentials` (model of `serde_json::to_vec`;
string escaping is elided — the id is hex-and-hyphens and secrets are
opaque bytes here). -/
def serializeCreds (nodeId secret : List Nat) : List Nat :=
  credsJsonA ++ (nodeId ++ (credsJsonB ++ (secret ++ credsJsonC)))

/-- Parse of `NodeCredentials` (model of
`serde_json::from_slice::<NodeCredentials>` on the canonical shape). -/
def parseCreds (bs : List Nat) : Option (List Nat × List Nat) :=
  match dropLiteral credsJsonA bs with
  | none => none
  | some r1 =>
    match takeUntilByte 34 r1 with
    | (nid, r2) =>
      match dropLiteral credsJsonB r2 with
      | none => none
      | some r3 =>
        match takeUntilByte 34 r3 with
        | (sec, r4) => if r4 == credsJsonC then some (nid, sec) else none

/-- Model of `store_credentials`: reject an empty secret, serialize
`{node_id, node_secret}` and write it through the vault under the fixed
secret id (`initialize_home` becomes the `home` parameter; the epoch
comes from the environment and is a parameter too). -/
def storeCredentials (nodeId : Uuid) (secret : List Nat) (home : String) (epoch : Nat)
    (fs : Fs) (rngD rngN : Nat → Nat) : Except CredentialsError Fs :=
  if secret.length = 0 then
    Except.error (CredentialsError.invalidNodeSecret (strBytes "node_secret cannot be empty"))
  else
    match writeNodeSecret home epoch secretIdNodeCredentials
        (serializeCreds (uuidToStr nodeId) secret) fs rngD rngN with
    | Except.error e => Except.error (CredentialsError.vaultError (strBytes e))
    | Except.ok fs' => Except.ok fs'

/-- Result of the store-credentials command (`EngineResponse`, reduced
to the observable ok/error-code outcome). -/
inductive StoreCmdResult where
  | ok (nodeId : List Nat)
  | err (code : List Nat)
deriving DecidableEq

/-- Model of the `commands.rs` store-credentials command: validate the
node id string as a UUID, validate the secret, then store; each
validation failure returns its error code with no vault write. -/
def storeNodeCredentialsCmd (nodeIdStr nodeSecretStr : List Nat) (home : String) (epoch : Nat)
    (fs : Fs) (rngD rngN : Nat → Nat) : StoreCmdResult × Fs :=
  match validateNodeId nodeIdStr with
  | Except.error _ => (StoreCmdResult.err (strBytes "INVALID_NODE_ID"), fs)
  | Except.ok nodeId =>
    match validateNodeSecret nodeSecretStr with
    | Except.error _ => (StoreCmdResult.err (strBytes "INVALID_NODE_SECRET"), fs)
    | Except.ok _ =>
      match storeCredentials nodeId nodeSecretStr home epoch fs rngD rngN with
      | Except.ok fs' => (StoreCmdResult.ok (uuidToStr nodeId), fs')
      | Except.error _ => (StoreCmdResult.err (strBytes "CREDENTIALS_STORE_ERROR"), fs)

/-- Model of `load_credentials`: read through the vault (absent file is
the distinct `NotConfigured`), decode the JSON, parse the UUID. -/
def loadCredentials (home : String) (epoch : Nat) (fs : Fs) (rngD : Nat → Nat) :
    Except CredentialsError ((Uuid × List Nat) × Fs) :=
  match readNodeSecret home epoch secretIdNodeCredentials fs rngD with
  | Except.error e => Except.error (CredentialsError.vaultError (strBytes e))
  | Except.ok (none, _) => Except.error CredentialsError.notConfigured
  | Except.ok (some pt, fs') =>
    match parseCreds pt with
    | none => Except.error (CredentialsError.vaultError (strBytes "JSON decode error"))
    | some (nidStr, secret) =>
      match parseUuid nidStr with
      | none => Except.error (CredentialsError.invalidNodeId (strBytes "Invalid UUID"))
      | some nid => Except.ok ((nid, secret), fs')

/-- Model of `has_credentials`: a bare file-existence check through
`has_node_secret`, no decryption. -/
def hasCredentialsFn (home : String) (fs : Fs) : Bool :=
  hasNodeSecret home secretIdNodeCredentials fs

/-- Credentials status (`CredentialsStatus`). -/
structure CredentialsStatus where
  has_credentials : Bool
  node_id : Option (List Nat)
deriving DecidableEq

/-- Model of `get_status`: `load_credentials().ok()` projected to the
node id; `has_credentials` is its presence. -/
def getStatus (home : String) (epoch : Nat) (fs : Fs) (rngD : Nat → Nat) : CredentialsStatus :=
  let nodeId := (loadCredentials home epoch fs rngD).toOption.map (fun r => uuidToStr r.1.1)
  { has_credentials := nodeId.isSome, node_id := nodeId }

/-- C7: storing node credentials rejects a non-UUID node id with the
invalid-id error and an under-16-byte secret with the invalid-secret
error, in both cases leaving the file map untouched; with a well-formed
id and secret it writes the credentials JSON through the vault under
the fixed `node_credentials` identifier. -/
theorem C7_store_credentials_validation :
    (∀ (nodeIdStr secretStr : List Nat) (home : String) (epoch : Nat) (fs : Fs)
        (rngD rngN : Nat → Nat),
      parseUuid nodeIdStr = none →
      storeNodeCredentialsCmd nodeIdStr secretStr home epoch fs rngD rngN =
        (StoreCmdResult.err (strBytes "INVALID_NODE_ID"), fs)) ∧
    (∀ (nodeIdStr secretStr : List Nat) (home : String) (epoch : Nat) (fs : Fs)
        (rngD rngN : Nat → Nat) (u : Uuid),
      parseUuid nodeIdStr = some u → secretStr.length < 16 →
      storeNodeCredentialsCmd nodeIdStr secretStr home epoch fs rngD rngN =
        (StoreCmdResult.err (strBytes "INVALID_NODE_SECRET"), fs)) ∧
    (∀ (nodeIdStr secretStr : List Nat) (home : String) (epoch : Nat) (fs fs' : Fs)
        (rngD rngN : Nat → Nat) (u : Uuid),
      parseUuid nodeIdStr = some u → 16 ≤ secretStr.length →
      writeNodeSecret home epoch secretIdNodeCredentials
          (serializeCreds (uuidToStr u) secretStr) fs rngD rngN = Except.ok fs' →
      storeNodeCredentialsCmd nodeIdStr secretStr home epoch fs rngD rngN =
        (StoreCmdResult.ok (uuidToStr u), fs')) := by
  refine ⟨?_, ?_, ?_⟩
  · intro nodeIdStr secretStr home epoch fs rngD rngN hparse
    simp [storeNodeCredentialsCmd, validateNodeId, hparse]
  · intro nodeIdStr secretStr home epoch fs rngD rngN u hparse hlen
    by_cases hz : secretStr.length = 0
    · simp [storeNodeCredentialsCmd, validateNodeId, hparse, validateNodeSecret, hz]
    · simp only [storeNodeCredentialsCmd, validateNodeId, hparse, validateNodeSecret, hz,
        if_false, reduceIte, if_pos hlen]
  · intro nodeIdStr secretStr home epoch fs fs' rngD rngN u hparse hlen hw
    have hz : ¬ secretStr.length = 0 := by omega
    have hlt : ¬ secretStr.length < 16 := by omega
    simp [storeNodeCredentialsCmd, validateNodeId, hparse, validateNodeSecret, hz, hlt,
      storeCredentials, hw]

/-- Concrete file map produced by a successful credentials store, for
the C7 witness. -/
def c7Fs : Fs :=
  (writeNodeSecret "home" 1 secretIdNodeCredentials
    (serializeCreds (uuidToStr (parseUuid (strBytes "550e8400-e29b-41d4-a716-446655440000")
      |>.getD uuidZero)) (strBytes "a-valid-32-char-secret-string!!!")) []
    (fun i => i) (fun i => i + 7)).toOption.getD []

theorem C7_store_credentials_validation_witness :
    storeNodeCredentialsCmd (strBytes "not-a-uuid") (strBytes "a-valid-32-char-secret-string!!!")
        "home" 1 [] (fun i => i) (fun i => i + 7) =
      (StoreCmdResult.err (strBytes "INVALID_NODE_ID"), []) ∧
    storeNodeCredentialsCmd (strBytes "550e8400-e29b-41d4-a716-446655440000") (strBytes "short")
        "home" 1 [] (fun i => i) (fun i => i + 7) =
      (StoreCmdResult.err (strBytes "INVALID_NODE_SECRET"), []) ∧
    storeNodeCredentialsCmd (strBytes "550e8400-e29b-41d4-a716-446655440000")
        (strBytes "a-valid-32-char-secret-string!!!") "home" 1 [] (fun i => i) (fun i => i + 7) =
      (StoreCmdResult.ok (uuidToStr (parseUuid (strBytes "550e8400-e29b-41d4-a716-446655440000")
        |>.getD uuidZero)), c7Fs) :=
  ⟨C7_store_credentials_validation.1 (strBytes "not-a-uuid")
      (strBytes "a-valid-32-char-secret-string!!!") "home" 1 [] (fun i => i) (fun i => i + 7)
      (by decide),
    C7_store_credentials_validation.2.1 (strBytes "550e8400-e29b-41d4-a716-446655440000")
      (strBytes "short") "home" 1 [] (fun i => i) (fun i => i + 7)
      (parseUuid (strBytes "550e8400-e29b-41d4-a716-446655440000") |>.getD uuidZero)
      (by decide) (by decide),
    C7_store_credentials_validation.2.2 (strBytes "550e8400-e29b-41d4-a716-446655440000")
      (strBytes "a-valid-32-char-secret-string!!!") "home" 1 [] c7Fs (fun i => i)
      (fun i => i + 7)
      (parseUuid (strBytes "550e8400-e29b-41d4-a716-446655440000") |>.getD uuidZero)
      (by decide) (by decide) rfl⟩

/-- A file map holding unparseable bytes at the credentials path, for
the C10 divergence. -/
def c10CorruptFs : Fs :=
  fsWrite [] (vaultSecretPath "home" secretIdNodeCredentials) (strBytes "garbage")

/-- C10: `get_status().has_credentials` holds exactly when
`load_credentials()` succeeds end to end, while `has_credentials()` is
only a file-existence check; on a present but corrupt credentials file
the two diverge: `has_credentials()` is true while `get_status` reports
false. -/
theorem C10_get_status_vs_has_credentials :
    (∀ (home : String) (epoch : Nat) (fs : Fs) (rngD : Nat → Nat),
      ((getStatus home epoch fs rngD).has_credentials = true ↔
        ∃ r, loadCredentials home epoch fs rngD = Except.ok r)) ∧
    (∀ (home : String) (fs : Fs),
      hasCredentialsFn home fs = fsExists fs (vaultSecretPath home secretIdNodeCredentials)) ∧
    (hasCredentialsFn "home" c10CorruptFs = true ∧
      (getStatus "home" 1 c10CorruptFs (fun _ => 0)).has_credentials = false ∧
      (getStatus "home" 1 c10CorruptFs (fun _ => 0)).node_id = none) := by
  refine ⟨?_, ?_, by decide, ?_, ?_⟩
  · intro home epoch fs rngD
    unfold getStatus
    cases hl : loadCredentials home epoch fs rngD with
    | error e => simp [Except.toOption, hl]
    | ok r => simp [Except.toOption, hl]
  · intro home fs
    rfl
  · decide
  · decide
